import Mathlib

/-!
Verification of the EQSP32 pin-virtualization core (src/src/EQSP32.h).

The address codec (bit-packing macros), fault-sentinel predicates and the
declared default arguments are embedded directly from the header.  The
behavioural parts (pin state machine, edge tracker, debounce and relay
timers, shared POUT frequency) are declared in the header but their
implementation is not part of this repository's sources; those components
are modelled from the specification, as indicated on each definition.
-/

set_option maxRecDepth 4096

/-! ### Address codec (EQSP32.h lines 107-153)

Shift/mask macros on the 32-bit pin identifier.  C `<<`, `>>`, `&`, `|`
on non-negative ints are embedded as the Nat bitwise operators. -/

/-- `#define PIN_SHIFT(id) ((id) << 0)` — bits 0-7; bits 8-11 are reserved. -/
def PIN_SHIFT (id : Nat) : Nat := id <<< 0

/-- `#define MODULE_IDX_SHIFT(id) ((id) << 12)` — bits 12-15. -/
def MODULE_IDX_SHIFT (id : Nat) : Nat := id <<< 12

/-- `#define MODULE_SHIFT(id) ((id) << 16)` — bits 16-23. -/
def MODULE_SHIFT (id : Nat) : Nat := id <<< 16

/-- `#define SLAVE_SHIFT(id) ((id) << 24)` — bits 24-31. -/
def SLAVE_SHIFT (id : Nat) : Nat := id <<< 24

/-- `#define PIN_MASK PIN_SHIFT(0xFF)` (8-bit). -/
def PIN_MASK : Nat := PIN_SHIFT 0xFF

/-- `#define MODULE_IDX_MASK MODULE_IDX_SHIFT(0xF)` (4-bit). -/
def MODULE_IDX_MASK : Nat := MODULE_IDX_SHIFT 0xF

/-- `#define MODULE_MASK MODULE_SHIFT(0xFF)` (8-bit). -/
def MODULE_MASK : Nat := MODULE_SHIFT 0xFF

/-- `#define SLAVE_MASK SLAVE_SHIFT(0xFF)` (8-bit). -/
def SLAVE_MASK : Nat := SLAVE_SHIFT 0xFF

/-- `#define PIN_UNSHIFT(id) (((id) & PIN_MASK) >> 0)`. -/
def PIN_UNSHIFT (id : Nat) : Nat := (id &&& PIN_MASK) >>> 0

/-- `#define MODULE_IDX_UNSHIFT(id) (((id) & MODULE_IDX_MASK) >> 12)`. -/
def MODULE_IDX_UNSHIFT (id : Nat) : Nat := (id &&& MODULE_IDX_MASK) >>> 12

/-- `#define MODULE_UNSHIFT(id) (((id) & MODULE_MASK) >> 16)`. -/
def MODULE_UNSHIFT (id : Nat) : Nat := (id &&& MODULE_MASK) >>> 16

/-- `#define SLAVE_UNSHIFT(id) (((id) & SLAVE_MASK) >> 24)`. -/
def SLAVE_UNSHIFT (id : Nat) : Nat := (id &&& SLAVE_MASK) >>> 24

/-- `#define MASTER(pin) (SLAVE_SHIFT(0) | (pin & MODULE_MASK) | (pin & MODULE_IDX_MASK) | (pin & PIN_MASK))`. -/
def MASTER (pin : Nat) : Nat :=
  SLAVE_SHIFT 0 ||| (pin &&& MODULE_MASK) ||| (pin &&& MODULE_IDX_MASK) ||| (pin &&& PIN_MASK)

/-- `#define SLAVE_1(pin) (SLAVE_SHIFT(1) | ...)` — same body, unit role 1. -/
def SLAVE_1 (pin : Nat) : Nat :=
  SLAVE_SHIFT 1 ||| (pin &&& MODULE_MASK) ||| (pin &&& MODULE_IDX_MASK) ||| (pin &&& PIN_MASK)

/-- `#define SLAVE_2(pin)` — unit role 2. -/
def SLAVE_2 (pin : Nat) : Nat :=
  SLAVE_SHIFT 2 ||| (pin &&& MODULE_MASK) ||| (pin &&& MODULE_IDX_MASK) ||| (pin &&& PIN_MASK)

/-- `#define SLAVE_3(pin)` — unit role 3. -/
def SLAVE_3 (pin : Nat) : Nat :=
  SLAVE_SHIFT 3 ||| (pin &&& MODULE_MASK) ||| (pin &&& MODULE_IDX_MASK) ||| (pin &&& PIN_MASK)

/-- `#define SLAVE_4(pin)` — unit role 4. -/
def SLAVE_4 (pin : Nat) : Nat :=
  SLAVE_SHIFT 4 ||| (pin &&& MODULE_MASK) ||| (pin &&& MODULE_IDX_MASK) ||| (pin &&& PIN_MASK)

/-- `#define EQXIO_ID 0x01` — ADIO expansion module type. -/
def EQXIO_ID : Nat := 0x01

/-- `#define EQXPH_ID 0x10` — pH sensor module type. -/
def EQXPH_ID : Nat := 0x10

/-- `#define EQXTC_ID 0x20` — thermocouple sensor module type. -/
def EQXTC_ID : Nat := 0x20

/-- `#define EQXPT_ID 0x30` — PT100/PT1000 sensor module type. -/
def EQXPT_ID : Nat := 0x30

/-- `#define EQXIO(idx, pin) (MODULE_SHIFT(EQXIO_ID) | (MODULE_IDX_SHIFT(idx & 0x0F)) | (pin & PIN_MASK))`.
The `_code` suffix is added to the source macro name for this development. -/
def EQXIO_code (idx pin : Nat) : Nat :=
  MODULE_SHIFT EQXIO_ID ||| MODULE_IDX_SHIFT (idx &&& 0x0F) ||| (pin &&& PIN_MASK)

/-- `#define EQXPH(idx, pin)` — same body with `EQXPH_ID`. -/
def EQXPH_code (idx pin : Nat) : Nat :=
  MODULE_SHIFT EQXPH_ID ||| MODULE_IDX_SHIFT (idx &&& 0x0F) ||| (pin &&& PIN_MASK)

/-- `#define EQXTC(idx, pin)` — same body with `EQXTC_ID`. -/
def EQXTC_code (idx pin : Nat) : Nat :=
  MODULE_SHIFT EQXTC_ID ||| MODULE_IDX_SHIFT (idx &&& 0x0F) ||| (pin &&& PIN_MASK)

/-- `#define EQXPT(idx, pin)` — same body with `EQXPT_ID`. -/
def EQXPT_code (idx pin : Nat) : Nat :=
  MODULE_SHIFT EQXPT_ID ||| MODULE_IDX_SHIFT (idx &&& 0x0F) ||| (pin &&& PIN_MASK)

/-- The five unit roles selectable by the composition macros. -/
inductive UnitRole where
  | master | slave1 | slave2 | slave3 | slave4
deriving DecidableEq

/-- The numeric role field each role macro writes into bits 24-31. -/
def roleCode : UnitRole → Nat
  | .master => 0
  | .slave1 => 1
  | .slave2 => 2
  | .slave3 => 3
  | .slave4 => 4

/-- Applies the role's composition macro. -/
def applyUnit : UnitRole → Nat → Nat
  | .master => MASTER
  | .slave1 => SLAVE_1
  | .slave2 => SLAVE_2
  | .slave3 => SLAVE_3
  | .slave4 => SLAVE_4

/-- The four expansion-module composition macros. -/
inductive EQXModule where
  | ioModule | phModule | tcModule | ptModule
deriving DecidableEq

/-- The module-type code each module macro writes into bits 16-23. -/
def moduleCode : EQXModule → Nat
  | .ioModule => EQXIO_ID
  | .phModule => EQXPH_ID
  | .tcModule => EQXTC_ID
  | .ptModule => EQXPT_ID

/-- Applies the module's composition macro. -/
def applyModule : EQXModule → Nat → Nat → Nat
  | .ioModule => EQXIO_code
  | .phModule => EQXPH_code
  | .tcModule => EQXTC_code
  | .ptModule => EQXPT_code

/-! ### Bit-field helper lemmas -/

/-- A field shifted to position `s` survives a mask that covers it. -/
theorem land_field_inside (y s t w h : Nat) (hy : y < 2 ^ h) (hts : t ≤ s)
    (hsw : s + h ≤ t + w) : (y <<< s) &&& ((2 ^ w - 1) <<< t) = y <<< s := by
  apply Nat.eq_of_testBit_eq
  intro i
  simp only [Nat.testBit_and, Nat.testBit_shiftLeft, Nat.testBit_two_pow_sub_one,
    ge_iff_le]
  by_cases hsi : s ≤ i
  · by_cases hih : i - s < h
    · have h1 : t ≤ i := le_trans hts hsi
      have h2 : i - t < w := by omega
      simp [hsi, h1, h2]
    · have hb : y.testBit (i - s) = false :=
        Nat.testBit_lt_two_pow
          (lt_of_lt_of_le hy (Nat.pow_le_pow_right (by omega) (by omega)))
      simp [hb]
  · simp [hsi]

/-- A field shifted wholly above a mask is cleared by it. -/
theorem land_field_low (y s t w : Nat) (h : t + w ≤ s) :
    (y <<< s) &&& ((2 ^ w - 1) <<< t) = 0 := by
  apply Nat.eq_of_testBit_eq
  intro i
  simp only [Nat.testBit_and, Nat.testBit_shiftLeft, Nat.testBit_two_pow_sub_one,
    Nat.zero_testBit, ge_iff_le]
  by_cases hsi : s ≤ i
  · have h2 : ¬ (i - t < w) := by omega
    simp [h2]
  · simp [hsi]

/-- A bounded field shifted wholly below a mask is cleared by it. -/
theorem land_field_high (y s t w h : Nat) (hy : y < 2 ^ h) (hst : s + h ≤ t) :
    (y <<< s) &&& ((2 ^ w - 1) <<< t) = 0 := by
  apply Nat.eq_of_testBit_eq
  intro i
  simp only [Nat.testBit_and, Nat.testBit_shiftLeft, Nat.testBit_two_pow_sub_one,
    Nat.zero_testBit, ge_iff_le]
  by_cases hsi : s ≤ i
  · by_cases hih : i - s < h
    · have h2 : ¬ (t ≤ i) := by omega
      simp [h2]
    · have hb : y.testBit (i - s) = false :=
        Nat.testBit_lt_two_pow
          (lt_of_lt_of_le hy (Nat.pow_le_pow_right (by omega) (by omega)))
      simp [hb]
  · simp [hsi]

/-- Left shift then right shift by the same amount is the identity. -/
theorem shiftLeft_shiftRight_cancel (x n : Nat) : (x <<< n) >>> n = x := by
  rw [Nat.shiftLeft_eq, Nat.shiftRight_eq_div_pow]
  exact Nat.mul_div_cancel x (Nat.pos_pow_of_pos n (by omega))

/-- Decoding each field of a composed identifier
`SLAVE_SHIFT r | (P & MODULE_MASK) | (P & MODULE_IDX_MASK) | (P & PIN_MASK)`
where `P` is the body produced by one of the `EQX*` module macros. -/
theorem unshift_composed (r c idx pin P : Nat) (hr : r < 256) (hc : c < 256)
    (hP : P = MODULE_SHIFT c ||| MODULE_IDX_SHIFT (idx &&& 0x0F) ||| (pin &&& PIN_MASK)) :
    SLAVE_UNSHIFT (SLAVE_SHIFT r ||| (P &&& MODULE_MASK) ||| (P &&& MODULE_IDX_MASK) |||
        (P &&& PIN_MASK)) = r ∧
    MODULE_UNSHIFT (SLAVE_SHIFT r ||| (P &&& MODULE_MASK) ||| (P &&& MODULE_IDX_MASK) |||
        (P &&& PIN_MASK)) = c ∧
    MODULE_IDX_UNSHIFT (SLAVE_SHIFT r ||| (P &&& MODULE_MASK) ||| (P &&& MODULE_IDX_MASK) |||
        (P &&& PIN_MASK)) = idx % 16 ∧
    PIN_UNSHIFT (SLAVE_SHIFT r ||| (P &&& MODULE_MASK) ||| (P &&& MODULE_IDX_MASK) |||
        (P &&& PIN_MASK)) = pin % 256 := by
  subst hP
  have hq : pin &&& PIN_MASK < 2 ^ 8 := Nat.and_lt_two_pow pin (by decide)
  have hidx : idx &&& 0x0F < 2 ^ 4 := Nat.and_lt_two_pow idx (by decide)
  -- The module-macro body, masked by each field mask.
  have eM1 : (MODULE_SHIFT c ||| MODULE_IDX_SHIFT (idx &&& 0x0F) ||| (pin &&& PIN_MASK))
      &&& MODULE_MASK = MODULE_SHIFT c := by
    rw [Nat.and_distrib_right, Nat.and_distrib_right]
    have e1 : MODULE_SHIFT c &&& MODULE_MASK = MODULE_SHIFT c :=
      land_field_inside c 16 16 8 8 hc (le_refl 16) (by omega)
    have e2 : MODULE_IDX_SHIFT (idx &&& 0x0F) &&& MODULE_MASK = 0 :=
      land_field_high (idx &&& 0x0F) 12 16 8 4 hidx (by omega)
    have e3 : (pin &&& PIN_MASK) &&& MODULE_MASK = 0 := by
      have := land_field_high (pin &&& PIN_MASK) 0 16 8 8 hq (by omega)
      rwa [Nat.shiftLeft_zero] at this
    rw [e1, e2, e3, Nat.or_zero, Nat.or_zero]
  have eM2 : (MODULE_SHIFT c ||| MODULE_IDX_SHIFT (idx &&& 0x0F) ||| (pin &&& PIN_MASK))
      &&& MODULE_IDX_MASK = MODULE_IDX_SHIFT (idx &&& 0x0F) := by
    rw [Nat.and_distrib_right, Nat.and_distrib_right]
    have e1 : MODULE_SHIFT c &&& MODULE_IDX_MASK = 0 :=
      land_field_low c 16 12 4 (by omega)
    have e2 : MODULE_IDX_SHIFT (idx &&& 0x0F) &&& MODULE_IDX_MASK =
        MODULE_IDX_SHIFT (idx &&& 0x0F) :=
      land_field_inside (idx &&& 0x0F) 12 12 4 4 hidx (le_refl 12) (by omega)
    have e3 : (pin &&& PIN_MASK) &&& MODULE_IDX_MASK = 0 := by
      have := land_field_high (pin &&& PIN_MASK) 0 12 4 8 hq (by omega)
      rwa [Nat.shiftLeft_zero] at this
    rw [e1, e2, e3, Nat.zero_or, Nat.or_zero]
  have eM3 : (MODULE_SHIFT c ||| MODULE_IDX_SHIFT (idx &&& 0x0F) ||| (pin &&& PIN_MASK))
      &&& PIN_MASK = pin &&& PIN_MASK := by
    rw [Nat.and_distrib_right, Nat.and_distrib_right]
    have e1 : MODULE_SHIFT c &&& PIN_MASK = 0 :=
      land_field_low c 16 0 8 (by omega)
    have e2 : MODULE_IDX_SHIFT (idx &&& 0x0F) &&& PIN_MASK = 0 :=
      land_field_low (idx &&& 0x0F) 12 0 8 (by omega)
    have e3 : (pin &&& PIN_MASK) &&& PIN_MASK = pin &&& PIN_MASK := by
      rw [Nat.and_assoc, Nat.and_self]
    rw [e1, e2, e3, Nat.zero_or, Nat.zero_or]
  rw [eM1, eM2, eM3]
  -- Now decode each field of the fully composed identifier.
  refine ⟨?_, ?_, ?_, ?_⟩
  · show (_ &&& SLAVE_MASK) >>> 24 = r
    rw [Nat.and_distrib_right, Nat.and_distrib_right, Nat.and_distrib_right]
    have e0 : SLAVE_SHIFT r &&& SLAVE_MASK = SLAVE_SHIFT r :=
      land_field_inside r 24 24 8 8 hr (le_refl 24) (by omega)
    have e1 : MODULE_SHIFT c &&& SLAVE_MASK = 0 :=
      land_field_high c 16 24 8 8 hc (by omega)
    have e2 : MODULE_IDX_SHIFT (idx &&& 0x0F) &&& SLAVE_MASK = 0 :=
      land_field_high (idx &&& 0x0F) 12 24 8 4 hidx (by omega)
    have e3 : (pin &&& PIN_MASK) &&& SLAVE_MASK = 0 := by
      have := land_field_high (pin &&& PIN_MASK) 0 24 8 8 hq (by omega)
      rwa [Nat.shiftLeft_zero] at this
    rw [e0, e1, e2, e3, Nat.or_zero, Nat.or_zero, Nat.or_zero]
    exact shiftLeft_shiftRight_cancel r 24
  · show (_ &&& MODULE_MASK) >>> 16 = c
    rw [Nat.and_distrib_right, Nat.and_distrib_right, Nat.and_distrib_right]
    have e0 : SLAVE_SHIFT r &&& MODULE_MASK = 0 :=
      land_field_low r 24 16 8 (by omega)
    have e1 : MODULE_SHIFT c &&& MODULE_MASK = MODULE_SHIFT c :=
      land_field_inside c 16 16 8 8 hc (le_refl 16) (by omega)
    have e2 : MODULE_IDX_SHIFT (idx &&& 0x0F) &&& MODULE_MASK = 0 :=
      land_field_high (idx &&& 0x0F) 12 16 8 4 hidx (by omega)
    have e3 : (pin &&& PIN_MASK) &&& MODULE_MASK = 0 := by
      have := land_field_high (pin &&& PIN_MASK) 0 16 8 8 hq (by omega)
      rwa [Nat.shiftLeft_zero] at this
    rw [e0, e1, e2, e3, Nat.zero_or, Nat.or_zero, Nat.or_zero]
    exact shiftLeft_shiftRight_cancel c 16
  · show (_ &&& MODULE_IDX_MASK) >>> 12 = idx % 16
    rw [Nat.and_distrib_right, Nat.and_distrib_right, Nat.and_distrib_right]
    have e0 : SLAVE_SHIFT r &&& MODULE_IDX_MASK = 0 :=
      land_field_low r 24 12 4 (by omega)
    have e1 : MODULE_SHIFT c &&& MODULE_IDX_MASK = 0 :=
      land_field_low c 16 12 4 (by omega)
    have e2 : MODULE_IDX_SHIFT (idx &&& 0x0F) &&& MODULE_IDX_MASK =
        MODULE_IDX_SHIFT (idx &&& 0x0F) :=
      land_field_inside (idx &&& 0x0F) 12 12 4 4 hidx (le_refl 12) (by omega)
    have e3 : (pin &&& PIN_MASK) &&& MODULE_IDX_MASK = 0 := by
      have := land_field_high (pin &&& PIN_MASK) 0 12 4 8 hq (by omega)
      rwa [Nat.shiftLeft_zero] at this
    rw [e0, e1, e2, e3, Nat.zero_or, Nat.zero_or, Nat.or_zero]
    rw [show MODULE_IDX_SHIFT (idx &&& 0x0F) = (idx &&& 0x0F) <<< 12 from rfl,
      shiftLeft_shiftRight_cancel]
    exact Nat.and_pow_two_sub_one_eq_mod idx 4
  · show (_ &&& PIN_MASK) >>> 0 = pin % 256
    rw [Nat.and_distrib_right, Nat.and_distrib_right, Nat.and_distrib_right]
    have e0 : SLAVE_SHIFT r &&& PIN_MASK = 0 :=
      land_field_low r 24 0 8 (by omega)
    have e1 : MODULE_SHIFT c &&& PIN_MASK = 0 :=
      land_field_low c 16 0 8 (by omega)
    have e2 : MODULE_IDX_SHIFT (idx &&& 0x0F) &&& PIN_MASK = 0 :=
      land_field_low (idx &&& 0x0F) 12 0 8 (by omega)
    have e3 : (pin &&& PIN_MASK) &&& PIN_MASK = pin &&& PIN_MASK := by
      rw [Nat.and_assoc, Nat.and_self]
    rw [e0, e1, e2, e3, Nat.zero_or, Nat.zero_or, Nat.zero_or, Nat.shiftRight_zero]
    exact Nat.and_pow_two_sub_one_eq_mod pin 8

/-- C2: for every unit role, module macro, module index and pin number, the
`*_UNSHIFT` decoders recover the role and module-type codes exactly, and the
index and pin reduced modulo their bit widths (4 and 8 bits); in-range inputs
are recovered exactly, and the encoders are total. -/
theorem c2_address_roundtrip (r : UnitRole) (m : EQXModule) (idx pin : Nat) :
    SLAVE_UNSHIFT (applyUnit r (applyModule m idx pin)) = roleCode r ∧
    MODULE_UNSHIFT (applyUnit r (applyModule m idx pin)) = moduleCode m ∧
    MODULE_IDX_UNSHIFT (applyUnit r (applyModule m idx pin)) = idx % 16 ∧
    PIN_UNSHIFT (applyUnit r (applyModule m idx pin)) = pin % 256 ∧
    (idx < 16 → MODULE_IDX_UNSHIFT (applyUnit r (applyModule m idx pin)) = idx) ∧
    (pin < 256 → PIN_UNSHIFT (applyUnit r (applyModule m idx pin)) = pin) := by
  have key : SLAVE_UNSHIFT (applyUnit r (applyModule m idx pin)) = roleCode r ∧
      MODULE_UNSHIFT (applyUnit r (applyModule m idx pin)) = moduleCode m ∧
      MODULE_IDX_UNSHIFT (applyUnit r (applyModule m idx pin)) = idx % 16 ∧
      PIN_UNSHIFT (applyUnit r (applyModule m idx pin)) = pin % 256 := by
    cases r <;> cases m <;>
      exact unshift_composed _ _ idx pin _ (by decide) (by decide) rfl
  obtain ⟨h1, h2, h3, h4⟩ := key
  refine ⟨h1, h2, h3, h4, ?_, ?_⟩
  · intro hi
    rw [h3]
    exact Nat.mod_eq_of_lt hi
  · intro hp
    rw [h4]
    exact Nat.mod_eq_of_lt hp

/-- Witness for C2 at role slave-2, thermocouple module, index 3, pin 5. -/
theorem c2_address_roundtrip_witness :
    SLAVE_UNSHIFT (applyUnit .slave2 (applyModule .tcModule 3 5)) = 2 ∧
    MODULE_UNSHIFT (applyUnit .slave2 (applyModule .tcModule 3 5)) = 0x20 ∧
    MODULE_IDX_UNSHIFT (applyUnit .slave2 (applyModule .tcModule 3 5)) = 3 ∧
    PIN_UNSHIFT (applyUnit .slave2 (applyModule .tcModule 3 5)) = 5 := by
  have h := c2_address_roundtrip .slave2 .tcModule 3 5
  exact ⟨h.1, h.2.1, h.2.2.2.2.1 (by decide), h.2.2.2.2.2 (by decide)⟩

/-! ### Reserved bits 8-11 (C9)

The source comment at EQSP32.h line 108 marks bits 8-11 of a pin identifier
as reserved.  `0xF00` is the mask of that reserved field. -/

/-- Clears bits 8-11 of a value: "pin with the reserved bits cleared". -/
def stripReserved (x : Nat) : Nat := x ^^^ (x &&& 0xF00)

/-- Clearing the reserved bits of `x` does not change `x &&& M` for any mask
`M` disjoint from the reserved field. -/
theorem strip_land (x M : Nat) (hM : 0xF00 &&& M = 0) :
    stripReserved x &&& M = x &&& M := by
  show (x ^^^ (x &&& 0xF00)) &&& M = x &&& M
  rw [Nat.and_xor_distrib_right, Nat.and_assoc, hM, Nat.and_zero, Nat.xor_zero]

/-- The common body of the unit-role macros has reserved bits 8-11 zero. -/
theorem unit_body_reserved (k p : Nat) :
    (SLAVE_SHIFT k ||| (p &&& MODULE_MASK) ||| (p &&& MODULE_IDX_MASK) |||
      (p &&& PIN_MASK)) &&& 0xF00 = 0 := by
  rw [Nat.and_distrib_right, Nat.and_distrib_right, Nat.and_distrib_right]
  have e0 : SLAVE_SHIFT k &&& 0xF00 = 0 := land_field_low k 24 8 4 (by omega)
  have e1 : (p &&& MODULE_MASK) &&& 0xF00 = 0 := by
    rw [Nat.and_assoc, show MODULE_MASK &&& 0xF00 = 0 from by decide, Nat.and_zero]
  have e2 : (p &&& MODULE_IDX_MASK) &&& 0xF00 = 0 := by
    rw [Nat.and_assoc, show MODULE_IDX_MASK &&& 0xF00 = 0 from by decide, Nat.and_zero]
  have e3 : (p &&& PIN_MASK) &&& 0xF00 = 0 := by
    rw [Nat.and_assoc, show PIN_MASK &&& 0xF00 = 0 from by decide, Nat.and_zero]
  rw [e0, e1, e2, e3, Nat.or_zero, Nat.or_zero, Nat.or_zero]

/-- The common body of the `EQX*` module macros has reserved bits 8-11 zero. -/
theorem module_body_reserved (c idx pin : Nat) :
    (MODULE_SHIFT c ||| MODULE_IDX_SHIFT (idx &&& 0x0F) ||| (pin &&& PIN_MASK))
      &&& 0xF00 = 0 := by
  rw [Nat.and_distrib_right, Nat.and_distrib_right]
  have e0 : MODULE_SHIFT c &&& 0xF00 = 0 := land_field_low c 16 8 4 (by omega)
  have e1 : MODULE_IDX_SHIFT (idx &&& 0x0F) &&& 0xF00 = 0 :=
    land_field_low (idx &&& 0x0F) 12 8 4 (by omega)
  have e2 : (pin &&& PIN_MASK) &&& 0xF00 = 0 := by
    rw [Nat.and_assoc, show PIN_MASK &&& 0xF00 = 0 from by decide, Nat.and_zero]
  rw [e0, e1, e2, Nat.or_zero, Nat.or_zero]

/-- C9: every identifier produced by the composition macros has the reserved
bits 8-11 equal to zero (`id &&& 0xF00 = 0`), and each encoder strips any
bits of its pin argument falling in the reserved field, i.e. it yields the
same identifier when those bits are cleared beforehand. -/
theorem c9_reserved_bits (idx pin : Nat) :
    MASTER pin &&& 0xF00 = 0 ∧
    SLAVE_1 pin &&& 0xF00 = 0 ∧
    SLAVE_2 pin &&& 0xF00 = 0 ∧
    SLAVE_3 pin &&& 0xF00 = 0 ∧
    SLAVE_4 pin &&& 0xF00 = 0 ∧
    EQXIO_code idx pin &&& 0xF00 = 0 ∧
    EQXPH_code idx pin &&& 0xF00 = 0 ∧
    EQXTC_code idx pin &&& 0xF00 = 0 ∧
    EQXPT_code idx pin &&& 0xF00 = 0 ∧
    MASTER (stripReserved pin) = MASTER pin ∧
    SLAVE_1 (stripReserved pin) = SLAVE_1 pin ∧
    SLAVE_2 (stripReserved pin) = SLAVE_2 pin ∧
    SLAVE_3 (stripReserved pin) = SLAVE_3 pin ∧
    SLAVE_4 (stripReserved pin) = SLAVE_4 pin ∧
    EQXIO_code idx (stripReserved pin) = EQXIO_code idx pin ∧
    EQXPH_code idx (stripReserved pin) = EQXPH_code idx pin ∧
    EQXTC_code idx (stripReserved pin) = EQXTC_code idx pin ∧
    EQXPT_code idx (stripReserved pin) = EQXPT_code idx pin := by
  have hs1 : stripReserved pin &&& MODULE_MASK = pin &&& MODULE_MASK :=
    strip_land pin MODULE_MASK (by decide)
  have hs2 : stripReserved pin &&& MODULE_IDX_MASK = pin &&& MODULE_IDX_MASK :=
    strip_land pin MODULE_IDX_MASK (by decide)
  have hs3 : stripReserved pin &&& PIN_MASK = pin &&& PIN_MASK :=
    strip_land pin PIN_MASK (by decide)
  refine ⟨unit_body_reserved 0 pin, unit_body_reserved 1 pin, unit_body_reserved 2 pin,
    unit_body_reserved 3 pin, unit_body_reserved 4 pin,
    module_body_reserved EQXIO_ID idx pin, module_body_reserved EQXPH_ID idx pin,
    module_body_reserved EQXTC_ID idx pin, module_body_reserved EQXPT_ID idx pin,
    ?_, ?_, ?_, ?_, ?_, ?_, ?_, ?_, ?_⟩ <;>
    simp only [MASTER, SLAVE_1, SLAVE_2, SLAVE_3, SLAVE_4, EQXIO_code, EQXPH_code,
      EQXTC_code, EQXPT_code, hs1, hs2, hs3]

/-! ### Thermocouple fault sentinels (EQSP32.h lines 184-187, C3)

`value` is a C `int`; `&` on a (possibly negative) int with a positive mask
is two's-complement bitwise and, embedded as `Int.land`. -/

/-- `#define TC_FAULT_OPEN 0x8001` — thermocouple open circuit. -/
def TC_FAULT_OPEN : Int := 0x8001

/-- `#define TC_FAULT_SHORT_GND 0x8002` — thermocouple shorted to GND. -/
def TC_FAULT_SHORT_GND : Int := 0x8002

/-- `#define TC_FAULT_SHORT_VCC 0x8004` — thermocouple shorted to VCC. -/
def TC_FAULT_SHORT_VCC : Int := 0x8004

/-- `#define IS_TC_VALID(value) (((value) & 0xFF8000) != 0x8000)`. -/
def IS_TC_VALID (value : Int) : Bool := Int.land value 0xFF8000 != 0x8000

/-- If bit 15 of `m` is set and bits 16-23 are clear, the TC mask selects
exactly `0x8000`. -/
theorem tc_mask_pos (m : Nat) (hbit : m.testBit 15 = true)
    (hhigh : ∀ j, 16 ≤ j → j ≤ 23 → m.testBit j = false) :
    m &&& 0xFF8000 = 0x8000 := by
  apply Nat.eq_of_testBit_eq
  intro i
  rw [Nat.testBit_and,
    show (0xFF8000 : Nat) = (2 ^ 9 - 1) <<< 15 from by decide,
    show (0x8000 : Nat) = 2 ^ 15 from by decide,
    Nat.testBit_shiftLeft, Nat.testBit_two_pow_sub_one, Nat.testBit_two_pow]
  by_cases h1 : i = 15
  · subst h1
    simp [hbit]
  · by_cases h2 : 16 ≤ i ∧ i ≤ 23
    · simp [hhigh i h2.1 h2.2, show (15 : Nat) ≠ i from by omega]
    · have hge : ¬ (i ≥ 15) ∨ ¬ (i - 15 < 9) := by omega
      have hne : (15 : Nat) ≠ i := by omega
      rcases hge with h | h <;> simp [h, hne]

/-- Two's-complement version of `tc_mask_pos` for negative values
(`value = -[m+1]`, whose bit `j` is `!m.testBit j`). -/
theorem tc_mask_neg (m : Nat) (hbit : m.testBit 15 = false)
    (hhigh : ∀ j, 16 ≤ j → j ≤ 23 → m.testBit j = true) :
    Nat.ldiff 0xFF8000 m = 0x8000 := by
  apply Nat.eq_of_testBit_eq
  intro i
  rw [Nat.testBit_ldiff,
    show (0xFF8000 : Nat) = (2 ^ 9 - 1) <<< 15 from by decide,
    show (0x8000 : Nat) = 2 ^ 15 from by decide,
    Nat.testBit_shiftLeft, Nat.testBit_two_pow_sub_one, Nat.testBit_two_pow]
  by_cases h1 : i = 15
  · subst h1
    simp [hbit]
  · by_cases h2 : 16 ≤ i ∧ i ≤ 23
    · simp [hhigh i h2.1 h2.2, show (15 : Nat) ≠ i from by omega]
    · have hge : ¬ (i ≥ 15) ∨ ¬ (i - 15 < 9) := by omega
      have hne : (15 : Nat) ≠ i := by omega
      rcases hge with h | h <;> simp [h, hne]

/-- C3 counterexample: `0x18000` has fault bit `0x8000` set, yet
`IS_TC_VALID` accepts it, because bit 16 makes `value & 0xFF8000` differ
from `0x8000`.  So a set fault bit does not imply rejection. -/
theorem c3_counterexample :
    Int.land 0x18000 0x8000 ≠ 0 ∧ IS_TC_VALID 0x18000 = true := by
  constructor
  · decide
  · decide

/-- C3 (amended): every integer whose fault bit `0x8000` is set *and whose
bits 16-23 are all clear* (as in all documented `TC_FAULT_*` codes) is
rejected by `IS_TC_VALID`, regardless of bits 0-14 and of bits 24 and above
(including the sign). -/
theorem c3_fault_bit_rejected (value : Int)
    (h15 : Int.land value 0x8000 ≠ 0) (hhi : Int.land value 0xFF0000 = 0) :
    IS_TC_VALID value = false := by
  cases value with
  | ofNat m =>
    have e15 : Int.land (Int.ofNat m) 0x8000 = Int.ofNat (m &&& 0x8000) := rfl
    have ehi : Int.land (Int.ofNat m) 0xFF0000 = Int.ofNat (m &&& 0xFF0000) := rfl
    rw [e15] at h15
    rw [ehi] at hhi
    have h15n : m &&& 0x8000 ≠ 0 := by
      intro h
      exact h15 (by rw [h]; rfl)
    have hhin : m &&& 0xFF0000 = 0 := by
      simpa using hhi
    have hbit : m.testBit 15 = true := by
      rcases htb : m.testBit 15 with _ | _
      · exfalso
        apply h15n
        have := Nat.and_two_pow m 15
        rw [htb] at this
        simpa using this
      · rfl
    have hhigh : ∀ j, 16 ≤ j → j ≤ 23 → m.testBit j = false := by
      intro j hj1 hj2
      have hz := congrArg (fun x => Nat.testBit x j) hhin
      simp only [Nat.testBit_and, Nat.zero_testBit] at hz
      have hm : Nat.testBit 0xFF0000 j = true := by
        rw [show (0xFF0000 : Nat) = (2 ^ 8 - 1) <<< 16 from by decide,
          Nat.testBit_shiftLeft, Nat.testBit_two_pow_sub_one]
        have e1 : j ≥ 16 := hj1
        have e2 : j - 16 < 8 := by omega
        simp [e1, e2]
      rw [hm, Bool.and_true] at hz
      exact hz
    have key : Int.land (Int.ofNat m) 0xFF8000 = 0x8000 := by
      have e : Int.land (Int.ofNat m) 0xFF8000 = Int.ofNat (m &&& 0xFF8000) := rfl
      rw [e, tc_mask_pos m hbit hhigh]
      rfl
    simp only [IS_TC_VALID, bne_eq_false_iff_eq]
    exact key
  | negSucc m =>
    have e15 : Int.land (Int.negSucc m) 0x8000 = Int.ofNat (Nat.ldiff 0x8000 m) := rfl
    have ehi : Int.land (Int.negSucc m) 0xFF0000 = Int.ofNat (Nat.ldiff 0xFF0000 m) := rfl
    rw [e15] at h15
    rw [ehi] at hhi
    have h15n : Nat.ldiff 0x8000 m ≠ 0 := by
      intro h
      exact h15 (by rw [h]; rfl)
    have hhin : Nat.ldiff 0xFF0000 m = 0 := by
      simpa using hhi
    have hbit : m.testBit 15 = false := by
      obtain ⟨j, hj⟩ := Nat.ne_zero_implies_bit_true h15n
      rw [Nat.testBit_ldiff, show (0x8000 : Nat) = 2 ^ 15 from by decide,
        Nat.testBit_two_pow] at hj
      have hj15 : j = 15 := by
        by_contra hne
        simp [show (15 : Nat) ≠ j from fun h => hne h.symm] at hj
      subst hj15
      simp at hj
      exact hj
    have hhigh : ∀ j, 16 ≤ j → j ≤ 23 → m.testBit j = true := by
      intro j hj1 hj2
      have hz := congrArg (fun x => Nat.testBit x j) hhin
      simp only [Nat.testBit_ldiff, Nat.zero_testBit] at hz
      have hm : Nat.testBit 0xFF0000 j = true := by
        rw [show (0xFF0000 : Nat) = (2 ^ 8 - 1) <<< 16 from by decide,
          Nat.testBit_shiftLeft, Nat.testBit_two_pow_sub_one]
        have e1 : j ≥ 16 := hj1
        have e2 : j - 16 < 8 := by omega
        simp [e1, e2]
      rw [hm, Bool.true_and] at hz
      simpa using hz
    have key : Int.land (Int.negSucc m) 0xFF8000 = 0x8000 := by
      have e : Int.land (Int.negSucc m) 0xFF8000 = Int.ofNat (Nat.ldiff 0xFF8000 m) := rfl
      rw [e, tc_mask_neg m hbit hhigh]
      rfl
    simp only [IS_TC_VALID, bne_eq_false_iff_eq]
    exact key

/-- Witness for the amended C3 at the documented fault code `TC_FAULT_OPEN`. -/
theorem c3_fault_bit_rejected_witness :
    IS_TC_VALID TC_FAULT_OPEN = false :=
  c3_fault_bit_rejected TC_FAULT_OPEN (by decide) (by decide)

/-! ### Pin modes and the modelled pin state machine

The `EQSP32` class implementation is not part of this repository's sources
(the header only declares it), so the behaviour of `readMode`, `pinValue`,
`readPin`, `readUserBool`, `configSWT`, `configTIN`, `configRELAY` and
`configPOUTFreq` below is modelled from the specification and the header's
documentation comments. -/

/-- `enum PinMode : uint8_t` from EQSP32.h lines 156-176. -/
inductive PinMode where
  | NO_MODE | CUSTOM | INIT_NA
  | DIN | DOUT | AIN | CIN | AOUT | POUT
  | SWT | TIN | RELAY | RAIN
  | PH | TC | PT100_24W | PT100_3W
deriving DecidableEq

/-- The numeric code of each `PinMode` enumerator in the source. -/
def pinModeCode : PinMode → Nat
  | .NO_MODE => 0xFF
  | .CUSTOM => 0xFE
  | .INIT_NA => 0xFD
  | .DIN => 0
  | .DOUT => 1
  | .AIN => 2
  | .CIN => 3
  | .AOUT => 4
  | .POUT => 5
  | .SWT => 8
  | .TIN => 9
  | .RELAY => 10
  | .RAIN => 11
  | .PH => 0x10
  | .TC => 0x11
  | .PT100_24W => 0x12
  | .PT100_3W => 0x13

/-- `enum TrigMode` from EQSP32.h lines 199-204. -/
inductive TrigMode where
  | STATE | ON_RISING | ON_FALLING | ON_TOGGLE
deriving DecidableEq

/-- Modelled from the spec: the Trigger-Edge Tracker result (§4.3).  Given the
stored last level and the newly observed level: `STATE` returns the new level,
`ON_RISING` reports a low→high transition, `ON_FALLING` a high→low transition
and `ON_TOGGLE` any transition. -/
def trigRead : TrigMode → Bool → Bool → Bool
  | .STATE, _, newLevel => newLevel
  | .ON_RISING, last, newLevel => !last && newLevel
  | .ON_FALLING, last, newLevel => last && !newLevel
  | .ON_TOGGLE, last, newLevel => last != newLevel

/-- Modelled from the spec: the RELAY one-shot timer state (§3 RelayTimer):
idle, or running with the caller-set start value and the arming time. -/
inductive RelayPhase where
  | idle
  | running (startValue : Nat) (armTime : Nat)
deriving DecidableEq

/-- Modelled from the spec: a `pinValue` write to a RELAY-mode pin (§4.5).
Writing 0 disarms; a nonzero write arms an idle relay and has no re-arming
effect while the relay is already running. -/
def relayWrite (ph : RelayPhase) (now v : Nat) : RelayPhase :=
  if v = 0 then .idle
  else
    match ph with
    | .idle => .running v now
    | .running sv t0 => .running sv t0

/-- Modelled from the spec: the RELAY output value (§4.5, §8).  While running,
the output equals the start value until `derateDelay` ms have elapsed since
arming, and `holdValue` from then on; an idle relay outputs 0. -/
def relayOutput (holdValue derateDelay : Nat) (ph : RelayPhase) (now : Nat) : Nat :=
  match ph with
  | .idle => 0
  | .running sv t0 => if derateDelay ≤ now - t0 then holdValue else sv

/-- Modelled from the spec: per-pin state (§3 PinState) — current mode, the
edge-tracker level, the last written output value, the SWT debounce filter
(stable level, pending change with its start time, window) and the special
TIN/RELAY configuration. -/
structure PinState where
  mode : PinMode := .DIN
  lastLevel : Bool := false
  outputValue : Nat := 0
  swtStable : Bool := false
  swtPending : Option (Bool × Nat) := none
  swtWindow : Nat := 100
  tinBeta : Nat := 3435
  tinRefR : Nat := 10000
  relayHold : Nat := 500
  relayDerate : Nat := 1000
  relayPhase : RelayPhase := .idle
deriving DecidableEq

/-- Modelled from the spec: whole-unit state — the unit's configured role,
the 16 local pin states, the background-sampled raw digital level and the
analog measurement of each pin (environment inputs), the shared POUT
frequency and the user boolean table with its edge-tracker levels. -/
structure EQState where
  unitRole : Nat := 0
  pins : Fin 16 → PinState
  raw : Fin 16 → Bool
  analog : Fin 16 → Int
  poutFreq : Nat := 1000
  numUserBool : Nat := 8
  userBools : Nat → Bool
  userBoolLast : Nat → Bool

/-- Modelled from the spec: resolves a pin identifier to a local pin slot
(§4.1, §7): the encoded role must match the unit's role, the identifier must
not address an expansion module, and the pin number must be in 1..16. -/
def localPinIdx (s : EQState) (pinIndex : Nat) : Option (Fin 16) :=
  if h : SLAVE_UNSHIFT pinIndex = s.unitRole ∧ MODULE_UNSHIFT pinIndex = 0 ∧
      1 ≤ PIN_UNSHIFT pinIndex ∧ PIN_UNSHIFT pinIndex ≤ 16 then
    some ⟨PIN_UNSHIFT pinIndex - 1, by omega⟩
  else none

/-- Replaces the state of one pin slot. -/
def setPin (s : EQState) (p : Fin 16) (ps : PinState) : EQState :=
  { s with pins := Function.update s.pins p ps }

/-- Modelled from the spec: `readMode` (header lines 448-482) — the current
mode for a valid local pin, the sentinel `NO_MODE` otherwise; a pure, total
function that touches no pin state. -/
def readMode (s : EQState) (pinIndex : Nat) : PinMode :=
  match localPinIdx s pinIndex with
  | some p => (s.pins p).mode
  | none => .NO_MODE

/-- Modelled from the spec: output values are clamped to the logical range
[0,1000] (§4.4). -/
def clampVal (v : Nat) : Nat := min v 1000

/-- Modelled from the spec: `pinValue` (header lines 484-509).  Stores the
clamped value for the plain output modes; drives the relay timer for RELAY
pins; fails without side effects for invalid identifiers and non-output
modes. -/
def pinValue (s : EQState) (pinIndex v now : Nat) : Bool × EQState :=
  match localPinIdx s pinIndex with
  | none => (false, s)
  | some p =>
    match (s.pins p).mode with
    | .DOUT | .AOUT | .POUT =>
      (true, setPin s p { s.pins p with outputValue := clampVal v })
    | .RELAY =>
      (true, setPin s p
        { s.pins p with relayPhase := relayWrite (s.pins p).relayPhase now (clampVal v) })
    | _ => (false, s)

/-- Converts a digital level to the `int` returned by `readPin`. -/
def boolInt (b : Bool) : Int := if b then 1 else 0

/-- Modelled from the spec: `readPin` (header lines 511-542).  Returns -1 for
invalid identifiers; the edge-tracker result on the raw level for DIN pins
and on the debounced stable level for SWT pins (updating the stored last
level in both cases); the last written logical value for the plain output
modes; the relay timer's output for RELAY pins; and the environment's
analog measurement for the analog/sensor modes. -/
def readPin (s : EQState) (pinIndex : Nat) (trigMode : TrigMode) (now : Nat) :
    Int × EQState :=
  match localPinIdx s pinIndex with
  | none => (-1, s)
  | some p =>
    match (s.pins p).mode with
    | .DIN =>
      (boolInt (trigRead trigMode (s.pins p).lastLevel (s.raw p)),
        setPin s p { s.pins p with lastLevel := s.raw p })
    | .SWT =>
      (boolInt (trigRead trigMode (s.pins p).lastLevel (s.pins p).swtStable),
        setPin s p { s.pins p with lastLevel := (s.pins p).swtStable })
    | .DOUT | .AOUT | .POUT => (((s.pins p).outputValue : Int), s)
    | .RELAY =>
      ((relayOutput (s.pins p).relayHold (s.pins p).relayDerate
          (s.pins p).relayPhase now : Int), s)
    | .AIN | .CIN | .RAIN | .TIN | .PH | .TC | .PT100_24W | .PT100_3W =>
      (s.analog p, s)
    | _ => (-1, s)

/-- Modelled from the spec: `readUserBool` (header lines 632-651) — the
edge tracker applied to a boolean user variable; out-of-range indices
return false without touching the table. -/
def readUserBool (s : EQState) (idx : Nat) (trigMode : TrigMode) : Bool × EQState :=
  if 1 ≤ idx ∧ idx ≤ s.numUserBool then
    (trigRead trigMode (s.userBoolLast idx) (s.userBools idx),
      { s with userBoolLast := Function.update s.userBoolLast idx (s.userBools idx) })
  else (false, s)

/-- Modelled from the spec: `configSWT` (header lines 574-590) — puts a valid
local pin into SWT mode with the given debounce window, resetting the filter
to the current raw level with no pending change. -/
def configSWT (s : EQState) (pinIndex : Nat) (debounceTime_ms : Nat := 100) :
    Bool × EQState :=
  match localPinIdx s pinIndex with
  | some p =>
    (true, setPin s p
      { s.pins p with mode := .SWT, swtWindow := debounceTime_ms,
                      swtStable := s.raw p, swtPending := none })
  | none => (false, s)

/-- `configTIN` (header line 609): the declared default arguments
`beta = 3435` and `referenceResistance = 10000` are taken directly from the
source declaration; the stored effect is modelled from the spec (valid pins
1-8, stores the conversion parameters and sets TIN mode). -/
def configTIN (s : EQState) (pinIndex : Nat) (beta : Nat := 3435)
    (referenceResistance : Nat := 10000) : Bool × EQState :=
  match localPinIdx s pinIndex with
  | some p =>
    if PIN_UNSHIFT pinIndex ≤ 8 then
      (true, setPin s p
        { s.pins p with mode := .TIN, tinBeta := beta,
                        tinRefR := referenceResistance })
    else (false, s)
  | none => (false, s)

/-- Modelled from the spec: `configRELAY` (header lines 611-630) — puts a
valid local pin into RELAY mode and stores its hold value and derate delay
(declared defaults 500 and 1000). -/
def configRELAY (s : EQState) (pinIndex : Nat) (holdValue : Nat := 500)
    (derateDelay : Nat := 1000) : Bool × EQState :=
  match localPinIdx s pinIndex with
  | some p =>
    (true, setPin s p
      { s.pins p with mode := .RELAY, relayHold := holdValue,
                      relayDerate := derateDelay, relayPhase := .idle })
  | none => (false, s)

/-- Lower end of the POUT frequency band (header: "between 50 Hz and 3000 Hz"). -/
def EQ_MIN_POUT_FREQ : Nat := 50

/-- Upper end of the POUT frequency band (header: "between 50 Hz and 3000 Hz"). -/
def EQ_MAX_POUT_FREQ : Nat := 3000

/-- Modelled from the spec: `configPOUTFreq` (header lines 544-571) — one
shared frequency for all POUT/RELAY pins; out-of-band frequencies are
rejected without side effects. -/
def configPOUTFreq (s : EQState) (freq : Nat) : Bool × EQState :=
  if EQ_MIN_POUT_FREQ ≤ freq ∧ freq ≤ EQ_MAX_POUT_FREQ then
    (true, { s with poutFreq := freq })
  else (false, s)

/-- Modelled from the spec: the PWM frequency a pin is bound to — every
POUT/RELAY pin shares the single POUT frequency domain (§4.6); 0 for pins
outside that family. -/
def pinBoundFreq (s : EQState) (p : Fin 16) : Nat :=
  match (s.pins p).mode with
  | .POUT | .RELAY => s.poutFreq
  | _ => 0

/-- Modelled from the spec: one background debounce sample (§4.5 SWT).  A raw
level equal to the accepted stable level clears any pending change; a
differing level starts (or, on a further level change, refreshes) the
pending-change timestamp; the pending level is committed once it has been
held for the full window. -/
def swtSample (ps : PinState) (raw : Bool) (now : Nat) : PinState :=
  if raw = ps.swtStable then { ps with swtPending := none }
  else
    match ps.swtPending with
    | none => { ps with swtPending := some (raw, now) }
    | some (plvl, t0) =>
      if plvl = raw then
        if ps.swtWindow ≤ now - t0 then
          { ps with swtStable := raw, swtPending := none }
        else ps
      else { ps with swtPending := some (raw, now) }

/-- Runs the debounce filter over a time-stamped raw sample sequence. -/
def runSWT (ps : PinState) : List (Bool × Nat) → PinState
  | [] => ps
  | (r, t) :: rest => runSWT (swtSample ps r t) rest

/-- Counts the samples at which the debounce filter changes its stable level. -/
def swtCommits (ps : PinState) : List (Bool × Nat) → Nat
  | [] => 0
  | (r, t) :: rest =>
    (if (swtSample ps r t).swtStable = ps.swtStable then 0 else 1) +
      swtCommits (swtSample ps r t) rest

/-- A unit state with a pending falling edge on every tracker: every stored
last level is high while every current level is low. -/
def edgeDemoState : EQState :=
  { pins := fun _ => { lastLevel := true }, raw := fun _ => false,
    analog := fun _ => 0, userBools := fun _ => false, userBoolLast := fun _ => true }

/-- A unit state with all pins at their boot defaults (DIN mode), all inputs
low and the user table cleared. -/
def demoState : EQState :=
  { pins := fun _ => {}, raw := fun _ => false, analog := fun _ => 0,
    userBools := fun _ => false, userBoolLast := fun _ => false }

/-- C10: a `configTIN` call without explicit `beta`/`referenceResistance`
uses the declared default arguments 3435 and 10000 (header line 609), and a
defaulted call on a valid TIN-capable pin stores exactly those values. -/
theorem c10_configtin_defaults (s : EQState) (pinIndex : Nat) :
    configTIN s pinIndex = configTIN s pinIndex 3435 10000 ∧
    (∀ p, localPinIdx s pinIndex = some p → PIN_UNSHIFT pinIndex ≤ 8 →
      ((configTIN s pinIndex).2.pins p).tinBeta = 3435 ∧
      ((configTIN s pinIndex).2.pins p).tinRefR = 10000) := by
  refine ⟨rfl, ?_⟩
  intro p hp hle
  unfold configTIN
  rw [hp]
  simp [hle, setPin, Function.update_same]

/-- Witness for C10 at the default unit state and local pin 3. -/
theorem c10_configtin_defaults_witness :
    ((configTIN demoState (MASTER 3)).2.pins ⟨2, by omega⟩).tinBeta = 3435 ∧
    ((configTIN demoState (MASTER 3)).2.pins ⟨2, by omega⟩).tinRefR = 10000 :=
  (c10_configtin_defaults demoState (MASTER 3)).2 ⟨2, by omega⟩ (by decide) (by decide)

/-- C8: `readMode` returns the `NO_MODE` sentinel for every identifier whose
role does not match this unit, that addresses an expansion module, or whose
pin number is outside 1..16; it is a total pure function and touches no pin
state. -/
theorem c8_readmode_sentinel (s : EQState) (pinIndex : Nat)
    (h : SLAVE_UNSHIFT pinIndex ≠ s.unitRole ∨ MODULE_UNSHIFT pinIndex ≠ 0 ∨
      PIN_UNSHIFT pinIndex < 1 ∨ 16 < PIN_UNSHIFT pinIndex) :
    readMode s pinIndex = .NO_MODE := by
  unfold readMode localPinIdx
  have hcond : ¬ (SLAVE_UNSHIFT pinIndex = s.unitRole ∧ MODULE_UNSHIFT pinIndex = 0 ∧
      1 ≤ PIN_UNSHIFT pinIndex ∧ PIN_UNSHIFT pinIndex ≤ 16) := by
    rintro ⟨h1, h2, h3, h4⟩
    rcases h with h | h | h | h
    · exact h h1
    · exact h h2
    · omega
    · omega
  simp [hcond]

/-- Witness for C8: a slave-1 address on a master-role unit yields `NO_MODE`. -/
theorem c8_readmode_sentinel_witness :
    readMode demoState (SLAVE_1 3) = .NO_MODE :=
  c8_readmode_sentinel demoState (SLAVE_1 3) (by decide)

/-- C7: an out-of-band frequency makes `configPOUTFreq` fail with the state
(shared frequency and every pin configuration) unchanged; an in-band
frequency succeeds, changes no pin configuration, and binds every pin
currently in POUT or RELAY mode to the one new shared frequency. -/
theorem c7_pout_freq (s : EQState) (freq : Nat) :
    ((freq < EQ_MIN_POUT_FREQ ∨ EQ_MAX_POUT_FREQ < freq) →
      (configPOUTFreq s freq).1 = false ∧ (configPOUTFreq s freq).2 = s) ∧
    (EQ_MIN_POUT_FREQ ≤ freq → freq ≤ EQ_MAX_POUT_FREQ →
      (configPOUTFreq s freq).1 = true ∧
      (∀ p : Fin 16, (configPOUTFreq s freq).2.pins p = s.pins p) ∧
      (∀ p : Fin 16, ((s.pins p).mode = .POUT ∨ (s.pins p).mode = .RELAY) →
        pinBoundFreq (configPOUTFreq s freq).2 p = freq)) := by
  constructor
  · intro h
    have hcond : ¬ (EQ_MIN_POUT_FREQ ≤ freq ∧ freq ≤ EQ_MAX_POUT_FREQ) := by
      unfold EQ_MIN_POUT_FREQ EQ_MAX_POUT_FREQ at *
      omega
    simp [configPOUTFreq, hcond]
  · intro h1 h2
    refine ⟨by simp [configPOUTFreq, h1, h2], by simp [configPOUTFreq, h1, h2], ?_⟩
    intro p hp
    rcases hp with hp | hp <;> simp [configPOUTFreq, h1, h2, pinBoundFreq, hp]

/-- Witness for C7: 5000 Hz is rejected without side effects; 400 Hz is
accepted and binds a POUT pin to 400 Hz. -/
theorem c7_pout_freq_witness :
    (configPOUTFreq demoState 5000).1 = false ∧
    (configPOUTFreq demoState 5000).2 = demoState ∧
    (configPOUTFreq (setPin demoState ⟨0, by omega⟩ { mode := .POUT }) 400).1 = true ∧
    pinBoundFreq (configPOUTFreq (setPin demoState ⟨0, by omega⟩ { mode := .POUT }) 400).2
      ⟨0, by omega⟩ = 400 := by
  have h1 := (c7_pout_freq demoState 5000).1 (by decide)
  have h2 := (c7_pout_freq (setPin demoState ⟨0, by omega⟩ { mode := .POUT }) 400).2
    (by decide) (by decide)
  exact ⟨h1.1, h1.2, h2.1, h2.2.2 ⟨0, by omega⟩ (Or.inl (by decide))⟩

/-- Reading a source twice at the same level reports no edge in any
edge-trigger mode. -/
theorem trigRead_same_level (t : TrigMode) (l : Bool) (h : t ≠ .STATE) :
    trigRead t l l = false := by
  cases t with
  | STATE => exact absurd rfl h
  | ON_RISING => cases l <;> rfl
  | ON_FALLING => cases l <;> rfl
  | ON_TOGGLE => cases l <;> rfl

/-- C5: the RELAY one-shot — a nonzero write arms an idle relay; while
running the output equals the start value before `derateDelay` has elapsed
and is forced to `holdValue` afterwards; a further nonzero write has no
re-arming effect; writing 0 disarms from any phase and allows a new nonzero
write to re-arm; and on a RELAY-mode pin `pinValue`/`readPin` drive exactly
this machine. -/
theorem c5_relay_derate (holdValue derateDelay sv t0 nowB nowA noww nowp v : Nat)
    (ph : RelayPhase) :
    (v ≠ 0 → relayWrite .idle noww v = .running v noww) ∧
    (nowB - t0 < derateDelay →
      relayOutput holdValue derateDelay (.running sv t0) nowB = sv) ∧
    (derateDelay ≤ nowA - t0 →
      relayOutput holdValue derateDelay (.running sv t0) nowA = holdValue) ∧
    (v ≠ 0 → relayWrite (.running sv t0) noww v = .running sv t0) ∧
    (relayWrite ph noww 0 = .idle) ∧
    (v ≠ 0 → relayWrite (relayWrite ph nowp 0) noww v = .running v noww) ∧
    (∀ (s : EQState) (pinIndex : Nat) (p : Fin 16),
      localPinIdx s pinIndex = some p → (s.pins p).mode = .RELAY →
      ((pinValue s pinIndex v noww).2.pins p).relayPhase =
        relayWrite (s.pins p).relayPhase noww (clampVal v) ∧
      (readPin s pinIndex .STATE noww).1 =
        (relayOutput (s.pins p).relayHold (s.pins p).relayDerate
          (s.pins p).relayPhase noww : Int)) := by
  refine ⟨?_, ?_, ?_, ?_, ?_, ?_, ?_⟩
  · intro hv
    simp [relayWrite, hv]
  · intro hlt
    simp [relayOutput, Nat.not_le.mpr hlt]
  · intro hge
    simp [relayOutput, hge]
  · intro hv
    simp [relayWrite, hv]
  · simp [relayWrite]
  · intro hv
    simp [relayWrite, hv]
  · intro s pinIndex p hloc hmode
    unfold pinValue readPin
    simp only [hloc, hmode]
    simp [setPin, Function.update_same]

/-- Witness for C5 with start value 700, hold 300, derate delay 1000 ms. -/
theorem c5_relay_derate_witness :
    relayWrite .idle 0 700 = .running 700 0 ∧
    relayOutput 300 1000 (.running 700 0) 500 = 700 ∧
    relayOutput 300 1000 (.running 700 0) 1500 = 300 ∧
    relayWrite (.running 700 0) 1500 600 = .running 700 0 ∧
    relayWrite (.running 700 0) 1600 0 = .idle ∧
    relayWrite (relayWrite (.running 700 0) 1600 0) 1700 700 = .running 700 1700 := by
  have h1 := c5_relay_derate 300 1000 700 0 500 1500 0 1600 700 (.running 700 0)
  have h2 := c5_relay_derate 300 1000 700 0 500 1500 1700 1600 700 (.running 700 0)
  exact ⟨h1.1 (by decide), h1.2.1 (by decide), h1.2.2.1 (by decide),
    (c5_relay_derate 300 1000 700 0 500 1500 1500 1600 600 (.running 700 0)).2.2.2.1
      (by decide),
    h1.2.2.2.2.1, h2.2.2.2.2.2.1 (by decide)⟩

/-- C1: for both boolean-valued sources — a DIN pin read through `readPin`
and a boolean user variable read through `readUserBool` — every read stores
the newly observed level as the tracker's last level regardless of the
requested trigger mode, so an immediately following read in any edge-trigger
mode with no new raw transition reports no edge (returns 0 / false): a
consumed transition is never reported twice or by a later read. -/
theorem c1_edge_state_shared :
    (∀ (s : EQState) (pinIndex : Nat) (p : Fin 16) (t1 t2 : TrigMode) (now : Nat),
      localPinIdx s pinIndex = some p → (s.pins p).mode = .DIN →
      (((readPin s pinIndex t1 now).2.pins p).lastLevel = s.raw p ∧
        (t2 ≠ .STATE →
          (readPin (readPin s pinIndex t1 now).2 pinIndex t2 now).1 = 0))) ∧
    (∀ (s : EQState) (idx : Nat) (t1 t2 : TrigMode),
      1 ≤ idx → idx ≤ s.numUserBool →
      ((readUserBool s idx t1).2.userBoolLast idx = s.userBools idx ∧
        (t2 ≠ .STATE →
          (readUserBool (readUserBool s idx t1).2 idx t2).1 = false))) := by
  constructor
  · intro s pinIndex p t1 t2 now hloc hmode
    have hstep : (readPin s pinIndex t1 now).2 =
        setPin s p { s.pins p with lastLevel := s.raw p } := by
      unfold readPin
      simp only [hloc, hmode]
    constructor
    · rw [hstep]
      simp [setPin, Function.update_same]
    · intro ht2
      rw [hstep]
      have hloc2 : localPinIdx (setPin s p { s.pins p with lastLevel := s.raw p })
          pinIndex = some p := hloc
      have hmode2 : ((setPin s p { s.pins p with lastLevel := s.raw p }).pins p).mode =
          PinMode.DIN := by
        simp [setPin, Function.update_same]
        exact hmode
      unfold readPin
      simp only [hloc2, hmode2]
      simp [setPin, Function.update_same, trigRead_same_level t2 _ ht2, boolInt]
  · intro s idx t1 t2 h1 h2
    have hstep : (readUserBool s idx t1).2 =
        { s with userBoolLast := Function.update s.userBoolLast idx (s.userBools idx) } := by
      unfold readUserBool
      simp [h1, h2]
    constructor
    · rw [hstep]
      simp [Function.update_same]
    · intro ht2
      rw [hstep]
      unfold readUserBool
      simp [h1, h2, Function.update_same, trigRead_same_level t2 _ ht2]

/-- Witness for C1: a pending falling edge consumed by an `ON_RISING` read is
not reported by the following `ON_FALLING` read, for a DIN pin and a user
boolean. -/
theorem c1_edge_state_shared_witness :
    (((readPin edgeDemoState (MASTER 3) .ON_RISING 0).2.pins ⟨2, by omega⟩).lastLevel
        = false) ∧
    ((readPin (readPin edgeDemoState (MASTER 3) .ON_RISING 0).2 (MASTER 3)
        .ON_FALLING 0).1 = 0) ∧
    ((readUserBool edgeDemoState 1 .ON_RISING).2.userBoolLast 1 = false) ∧
    ((readUserBool (readUserBool edgeDemoState 1 .ON_RISING).2 1 .ON_FALLING).1
        = false) := by
  have hp := c1_edge_state_shared.1 edgeDemoState (MASTER 3) ⟨2, by omega⟩
    .ON_RISING .ON_FALLING 0 (by decide) (by decide)
  have hu := c1_edge_state_shared.2 edgeDemoState 1 .ON_RISING .ON_FALLING
    (by decide) (by decide)
  exact ⟨hp.1, hp.2 (by decide), hu.1, hu.2 (by decide)⟩

/-- A unit state whose pins are RELAY-mode relays already derated to their
hold value: armed at time 0 with start value 700, hold 300, delay 1000 ms. -/
def heldRelayState : EQState :=
  { pins := fun _ =>
      { mode := .RELAY, relayHold := 300, relayDerate := 1000,
        relayPhase := .running 700 0 },
    raw := fun _ => false, analog := fun _ => 0,
    userBools := fun _ => false, userBoolLast := fun _ => false }

/-- C4 counterexample: pin 1 is a valid local pin in the output-type mode
RELAY and 600 ∈ [0,1000], yet writing 600 at t = 2000 ms (relay held) and
reading back returns the hold value 300, not 600 — the write is accepted but
a held relay ignores further nonzero writes (§4.5, §8). -/
theorem c4_counterexample :
    (heldRelayState.pins ⟨0, by omega⟩).mode = .RELAY ∧
    (pinValue heldRelayState (MASTER 1) 600 2000).1 = true ∧
    (readPin (pinValue heldRelayState (MASTER 1) 600 2000).2 (MASTER 1)
      .STATE 2000).1 = 300 := by
  refine ⟨rfl, by decide, by decide⟩

/-- C4 (amended): `readPin` after `pinValue v` returns exactly `v` for every
valid local pin in DOUT, AOUT or POUT mode and every v ≤ 1000, in any state;
for a RELAY pin this holds when the relay is disarmed at the write (fresh
arming read back before the derate delay elapses, or a 0 write), but not in
general (see the counterexample). -/
theorem c4_output_readback (s : EQState) (pinIndex v now : Nat) (p : Fin 16)
    (hloc : localPinIdx s pinIndex = some p) (hv : v ≤ 1000) :
    (((s.pins p).mode = .DOUT ∨ (s.pins p).mode = .AOUT ∨ (s.pins p).mode = .POUT) →
      (readPin (pinValue s pinIndex v now).2 pinIndex .STATE now).1 = (v : Int)) ∧
    ((s.pins p).mode = .RELAY → (s.pins p).relayPhase = .idle → v ≠ 0 →
      0 < (s.pins p).relayDerate →
      (readPin (pinValue s pinIndex v now).2 pinIndex .STATE now).1 = (v : Int)) ∧
    ((s.pins p).mode = .RELAY → v = 0 →
      (readPin (pinValue s pinIndex v now).2 pinIndex .STATE now).1 = 0) := by
  have hclamp : clampVal v = v := by
    unfold clampVal
    omega
  refine ⟨?_, ?_, ?_⟩
  · intro hmode
    have hstep : (pinValue s pinIndex v now).2 =
        setPin s p { s.pins p with outputValue := clampVal v } := by
      unfold pinValue
      rcases hmode with h | h | h <;> simp only [hloc, h]
    rw [hstep]
    have hloc2 : localPinIdx (setPin s p { s.pins p with outputValue := clampVal v })
        pinIndex = some p := hloc
    have hmode2 : ((setPin s p { s.pins p with outputValue := clampVal v }).pins p).mode =
        (s.pins p).mode := by
      simp [setPin, Function.update_same]
    unfold readPin
    rcases hmode with h | h | h <;>
      · rw [h] at hmode2
        simp only [hloc2, hmode2]
        simp [setPin, Function.update_same, hclamp]
  · intro hmode hidle hv0 hd
    have hstep : (pinValue s pinIndex v now).2 =
        setPin s p { s.pins p with relayPhase := .running (clampVal v) now } := by
      unfold pinValue
      simp only [hloc, hmode]
      rw [hidle]
      have : clampVal v ≠ 0 := by
        unfold clampVal
        omega
      simp [relayWrite, this]
    rw [hstep]
    have hloc2 : localPinIdx (setPin s p
        { s.pins p with relayPhase := .running (clampVal v) now }) pinIndex = some p := hloc
    have hmode2 : ((setPin s p { s.pins p with relayPhase := .running (clampVal v) now
        }).pins p).mode = PinMode.RELAY := by
      simp [setPin, Function.update_same]
      exact hmode
    unfold readPin
    simp only [hloc2, hmode2]
    simp [setPin, Function.update_same, relayOutput, Nat.not_le.mpr hd, hclamp]
  · intro hmode hv0
    subst hv0
    have hstep : (pinValue s pinIndex 0 now).2 =
        setPin s p { s.pins p with relayPhase := .idle } := by
      unfold pinValue
      simp only [hloc, hmode]
      simp [relayWrite, clampVal]
    rw [hstep]
    have hloc2 : localPinIdx (setPin s p { s.pins p with relayPhase := .idle })
        pinIndex = some p := hloc
    have hmode2 : ((setPin s p { s.pins p with relayPhase := .idle }).pins p).mode =
        PinMode.RELAY := by
      simp [setPin, Function.update_same]
      exact hmode
    unfold readPin
    simp only [hloc2, hmode2]
    simp [setPin, Function.update_same, relayOutput]

/-- Witness for the amended C4: writing 750 to a DOUT pin reads back 750,
and arming an idle relay with 700 reads back 700 before the delay. -/
theorem c4_output_readback_witness :
    (readPin (pinValue (setPin demoState ⟨4, by omega⟩ { mode := .DOUT })
      (MASTER 5) 750 0).2 (MASTER 5) .STATE 0).1 = 750 ∧
    (readPin (pinValue (setPin demoState ⟨4, by omega⟩ { mode := .RELAY })
      (MASTER 5) 700 0).2 (MASTER 5) .STATE 0).1 = 700 := by
  have h1 := (c4_output_readback (setPin demoState ⟨4, by omega⟩ { mode := .DOUT })
    (MASTER 5) 750 0 ⟨4, by omega⟩ (by decide) (by decide)).1 (Or.inl (by decide))
  have h2 := (c4_output_readback (setPin demoState ⟨4, by omega⟩ { mode := .RELAY })
    (MASTER 5) 700 0 ⟨4, by omega⟩ (by decide) (by decide)).2.1 (by decide) (by decide)
    (by decide) (by decide)
  exact ⟨h1, h2⟩

/-- "The raw level never stays constant for the window": every contiguous
stretch of samples that starts and ends with level `l` and has only level-`l`
samples in between spans strictly less than `w` milliseconds. -/
def constRunsShort (w : Nat) (ss : List (Bool × Nat)) : Prop :=
  ∀ (pre mid post : List (Bool × Nat)) (l : Bool) (t0 t1 : Nat),
    ss = pre ++ [(l, t0)] ++ mid ++ [(l, t1)] ++ post →
    (∀ x ∈ mid, x.1 = l) → t1 - t0 < w

/-- Any sample sequence whose timestamps all lie below `w` has only short
constant runs. -/
theorem constRunsShort_of_bounded (w : Nat) (ss : List (Bool × Nat))
    (h : ∀ x ∈ ss, x.2 < w) : constRunsShort w ss := by
  intro pre mid post l t0 t1 heq _
  have hmem : ((l, t1) : Bool × Nat) ∈ ss := by
    rw [heq]
    simp
  have := h _ hmem
  omega

/-- Debounce safety induction: as long as every completed constant run of the
full sample list is shorter than the window, the stable level never changes.
The invariant records that a pending change `(l, t0)` marks the start of the
current run of `l`-samples in the already-processed prefix. -/
theorem swt_no_commit_aux (w : Nat) (full : List (Bool × Nat))
    (hshort : constRunsShort w full) :
    ∀ (rest pre : List (Bool × Nat)) (ps : PinState),
      full = pre ++ rest → ps.swtWindow = w →
      (ps.swtPending = none ∨
        ∃ l t0 mid pre0, ps.swtPending = some (l, t0) ∧
          pre = pre0 ++ [(l, t0)] ++ mid ∧ (∀ x ∈ mid, x.1 = l)) →
      (runSWT ps rest).swtStable = ps.swtStable := by
  intro rest
  induction rest with
  | nil =>
    intro pre ps _ _ _
    rfl
  | cons head tail ih =>
    obtain ⟨r, t⟩ := head
    intro pre ps hfull hw hinv
    show (runSWT (swtSample ps r t) tail).swtStable = ps.swtStable
    by_cases hr : r = ps.swtStable
    · have hstep : swtSample ps r t = { ps with swtPending := none } := by
        simp [swtSample, hr]
      rw [hstep]
      exact ih (pre ++ [(r, t)]) _ (by rw [hfull]; simp) hw (Or.inl rfl)
    · rcases hinv with hnone | ⟨l, t0, mid, pre0, hps, hpre, hmid⟩
      · have hstep : swtSample ps r t = { ps with swtPending := some (r, t) } := by
          simp [swtSample, hr, hnone]
        rw [hstep]
        exact ih (pre ++ [(r, t)]) _ (by rw [hfull]; simp) hw
          (Or.inr ⟨r, t, [], pre, rfl, by simp, by simp⟩)
      · by_cases hlr : l = r
        · subst hlr
          by_cases hexp : ps.swtWindow ≤ t - t0
          · exfalso
            have hdec : full = pre0 ++ [(l, t0)] ++ mid ++ [(l, t)] ++ tail := by
              rw [hfull, hpre]
              simp
            have := hshort pre0 mid tail l t0 t hdec hmid
            omega
          · have hstep : swtSample ps l t = ps := by
              simp [swtSample, hr, hps, hexp]
            rw [hstep]
            refine ih (pre ++ [(l, t)]) ps (by rw [hfull]; simp) hw
              (Or.inr ⟨l, t0, mid ++ [(l, t)], pre0, hps, by rw [hpre]; simp, ?_⟩)
            intro x hx
            rcases List.mem_append.mp hx with hx | hx
            · exact hmid x hx
            · simp at hx
              rw [hx]
        · have hstep : swtSample ps r t = { ps with swtPending := some (r, t) } := by
            simp [swtSample, hr, hps, hlr]
          rw [hstep]
          exact ih (pre ++ [(r, t)]) _ (by rw [hfull]; simp) hw
            (Or.inr ⟨r, t, [], pre, rfl, by simp, by simp⟩)

/-- Once the stable level equals `l`, further `l`-samples change nothing:
no commits, stable level preserved. -/
theorem swt_stable_absorb (l : Bool) :
    ∀ (ts : List Nat) (ps : PinState), ps.swtStable = l →
      swtCommits ps (ts.map fun t => (l, t)) = 0 ∧
      (runSWT ps (ts.map fun t => (l, t))).swtStable = l := by
  intro ts
  induction ts with
  | nil =>
    intro ps h
    exact ⟨rfl, h⟩
  | cons t ts2 ih =>
    intro ps h
    have hstep : swtSample ps l t = { ps with swtPending := none } := by
      simp [swtSample, h]
    have hrec := ih { ps with swtPending := none } h
    constructor
    · show (if (swtSample ps l t).swtStable = ps.swtStable then 0 else 1) + _ = 0
      rw [hstep]
      simpa using hrec.1
    · show (runSWT (swtSample ps l t) _).swtStable = l
      rw [hstep]
      exact hrec.2

/-- With a pending change `(l, t0)` armed and a constant-`l` sample sequence
whose last timestamp is at least `t0 + w`, the filter commits exactly once
and ends stable at `l`. -/
theorem swt_commit_aux (l : Bool) (w : Nat) :
    ∀ (ts : List Nat) (ps : PinState) (t0 tl : Nat),
      ps.swtWindow = w → ps.swtStable ≠ l → ps.swtPending = some (l, t0) →
      ts.getLast? = some tl → w ≤ tl - t0 →
      swtCommits ps (ts.map fun t => (l, t)) = 1 ∧
      (runSWT ps (ts.map fun t => (l, t))).swtStable = l := by
  intro ts
  induction ts with
  | nil =>
    intro ps t0 tl _ _ _ hlast _
    simp at hlast
  | cons t ts2 ih =>
    intro ps t0 tl hw hne hpend hlast hspan
    have hr : ¬ (l = ps.swtStable) := fun h => hne h.symm
    by_cases hexp : ps.swtWindow ≤ t - t0
    · have hstep : swtSample ps l t = { ps with swtStable := l, swtPending := none } := by
        simp [swtSample, hr, hpend, hexp]
      have habs := swt_stable_absorb l ts2 { ps with swtStable := l, swtPending := none } rfl
      constructor
      · show (if (swtSample ps l t).swtStable = ps.swtStable then 0 else 1) + _ = 1
        rw [hstep]
        simp [hr, habs.1]
      · show (runSWT (swtSample ps l t) _).swtStable = l
        rw [hstep]
        exact habs.2
    · cases ts2 with
      | nil =>
        exfalso
        simp at hlast
        omega
      | cons t2 ts3 =>
        have hlast2 : (t2 :: ts3).getLast? = some tl := by
          rw [List.getLast?_cons_cons] at hlast
          exact hlast
        have hstep : swtSample ps l t = ps := by
          simp [swtSample, hr, hpend, hexp]
        have hrec := ih ps t0 tl hw hne hpend hlast2 hspan
        constructor
        · show (if (swtSample ps l t).swtStable = ps.swtStable then 0 else 1) + _ = 1
          rw [hstep]
          simpa using hrec.1
        · show (runSWT (swtSample ps l t) _).swtStable = l
          rw [hstep]
          exact hrec.2

/-- C6: the SWT debounce filter — (1) a raw sequence whose level never stays
constant for the full window never changes the stable level; (2) with a
positive window, a raw level `l` held constant for at least the window
commits exactly once, ending stable at `l`; (3) `readPin` on an SWT pin
returns the debounced stable level, and is independent of the raw level. -/
theorem c6_swt_debounce :
    (∀ (ps : PinState) (ss : List (Bool × Nat)),
      ps.swtPending = none → constRunsShort ps.swtWindow ss →
      (runSWT ps ss).swtStable = ps.swtStable) ∧
    (∀ (ps : PinState) (l : Bool) (t0 : Nat) (ts : List Nat) (tl : Nat),
      0 < ps.swtWindow → ps.swtPending = none → ps.swtStable ≠ l →
      (t0 :: ts).getLast? = some tl → ps.swtWindow ≤ tl - t0 →
      swtCommits ps ((t0 :: ts).map fun t => (l, t)) = 1 ∧
      (runSWT ps ((t0 :: ts).map fun t => (l, t))).swtStable = l) ∧
    (∀ (s : EQState) (pinIndex : Nat) (p : Fin 16) (now : Nat)
      (rawf : Fin 16 → Bool),
      localPinIdx s pinIndex = some p → (s.pins p).mode = .SWT →
      (readPin s pinIndex .STATE now).1 = boolInt ((s.pins p).swtStable) ∧
      (readPin { s with raw := rawf } pinIndex .STATE now).1 =
        boolInt ((s.pins p).swtStable)) := by
  refine ⟨?_, ?_, ?_⟩
  · intro ps ss hpend hshort
    exact swt_no_commit_aux ps.swtWindow ss hshort ss [] ps rfl rfl (Or.inl hpend)
  · intro ps l t0 ts tl hw0 hpend hne hlast hspan
    have hr : ¬ (l = ps.swtStable) := fun h => hne h.symm
    have hstep : swtSample ps l t0 = { ps with swtPending := some (l, t0) } := by
      simp [swtSample, hr, hpend]
    cases ts with
    | nil =>
      exfalso
      simp at hlast
      omega
    | cons t1 ts2 =>
      have hlast2 : (t1 :: ts2).getLast? = some tl := by
        rw [List.getLast?_cons_cons] at hlast
        exact hlast
      have key := swt_commit_aux l ps.swtWindow (t1 :: ts2)
        { ps with swtPending := some (l, t0) } t0 tl rfl hne rfl hlast2 hspan
      constructor
      · show (if (swtSample ps l t0).swtStable = ps.swtStable then 0 else 1) + _ = 1
        rw [hstep]
        simpa using key.1
      · show (runSWT (swtSample ps l t0) _).swtStable = l
        rw [hstep]
        exact key.2
  · intro s pinIndex p now rawf hloc hmode
    have hloc2 : localPinIdx { s with raw := rawf } pinIndex = some p := hloc
    constructor
    · unfold readPin
      simp only [hloc, hmode]
      simp [trigRead]
    · unfold readPin
      simp only [hloc2]
      rw [show ({ s with raw := rawf } : EQState).pins p = s.pins p from rfl]
      simp only [hmode]
      simp [trigRead]

/-- Witness for C6: a bouncing sequence below the 100 ms window leaves the
stable level low; a high level held for 100 ms commits exactly once; an SWT
pin reads back its stable level. -/
theorem c6_swt_debounce_witness :
    (runSWT { } [(true, 0), (false, 10), (true, 20)]).swtStable = false ∧
    swtCommits { } ([0, 100].map fun t => ((true : Bool), t)) = 1 ∧
    (runSWT { } ([0, 100].map fun t => ((true : Bool), t))).swtStable = true ∧
    (readPin (setPin demoState ⟨2, by omega⟩ { mode := .SWT, swtStable := true })
      (MASTER 3) .STATE 0).1 = 1 := by
  have h1 := c6_swt_debounce.1 { } [(true, 0), (false, 10), (true, 20)] rfl
    (constRunsShort_of_bounded 100 _ (by decide))
  have h2 := c6_swt_debounce.2.1 { } true 0 [100] 100 (by decide) rfl (by decide)
    (by decide) (by decide)
  have h3 := (c6_swt_debounce.2.2 (setPin demoState ⟨2, by omega⟩
    { mode := .SWT, swtStable := true }) (MASTER 3) ⟨2, by omega⟩ 0
    (fun _ => false) (by decide) (by decide)).1
  exact ⟨h1, h2.1, h2.2, by rw [h3]; decide⟩
